import Mathlib

/-!
# A shallow embedding of jsimdb (`src/index.js`)

Each definition below embeds one function of `src/index.js`, keeping the
source's names and control flow.  JavaScript runtime values are modelled by
the inductive type `Value`; JavaScript objects (records, tables, schemas) are
modelled as association lists in property-insertion order, which is the order
`for ... in` enumerates the string keys used throughout this module.
Exceptions thrown by the source are modelled with `Except`.
-/

namespace Jsimdb

/-- The JavaScript runtime values that can reach the database code:
numbers (modelled as integers — no claim exercises fractional values; the
number `0` is the falsy one), strings, booleans, `null`, `undefined`,
`Date` objects carrying their millisecond timestamp, and arrays. -/
inductive Value where
  | num (n : Int)
  | str (s : String)
  | bool (b : Bool)
  | null
  | undef
  | date (t : Int)
  | arr (vs : List Value)

mutual
/-- Boolean structural equality on `Value` (decidable equality is derived
from it below; the automatic deriving handler does not support the nested
`List Value` payload). -/
def veq : Value → Value → Bool
  | .num a, .num b => a == b
  | .str a, .str b => a == b
  | .bool a, .bool b => a == b
  | .null, .null => true
  | .undef, .undef => true
  | .date a, .date b => a == b
  | .arr a, .arr b => veqList a b
  | _, _ => false

/-- Boolean structural equality on lists of `Value`. -/
def veqList : List Value → List Value → Bool
  | [], [] => true
  | a :: as, b :: bs => veq a b && veqList as bs
  | _, _ => false
end

mutual
theorem veq_eq : ∀ (a b : Value), veq a b = true → a = b
  | a, b, h => by
    cases a <;> cases b <;> simp_all [veq]
    case arr.arr as bs => exact veqList_eq as bs h

theorem veqList_eq : ∀ (as bs : List Value), veqList as bs = true → as = bs
  | [], [], _ => rfl
  | a :: as, b :: bs, h => by
      simp only [veqList, Bool.and_eq_true] at h
      rw [veq_eq a b h.1, veqList_eq as bs h.2]
  | [], _ :: _, h => by simp [veqList] at h
  | _ :: _, [], h => by simp [veqList] at h
end

mutual
theorem veq_rfl : ∀ a : Value, veq a a = true
  | .num a => by simp [veq]
  | .str a => by simp [veq]
  | .bool a => by simp [veq]
  | .null => rfl
  | .undef => rfl
  | .date a => by simp [veq]
  | .arr vs => by simp only [veq]; exact veqList_rfl vs

theorem veqList_rfl : ∀ vs : List Value, veqList vs vs = true
  | [] => rfl
  | v :: rest => by simp [veqList, veq_rfl v, veqList_rfl rest]
end

instance : DecidableEq Value := fun a b =>
  if h : veq a b = true then isTrue (veq_eq a b h)
  else isFalse fun he => h (he ▸ veq_rfl a)

/-- A record/entry: a JavaScript object, field name to value, in
enumeration order (string keys in insertion order). -/
abbrev Record := List (String × Value)

/-- JavaScript property read `o[k]`: the value stored under `k`, or
`undefined` (here `none`) when the key is absent. -/
def jsGet {α : Type} : List (String × α) → String → Option α
  | [], _ => none
  | (k, v) :: rest, key => if k = key then some v else jsGet rest key

/-- JavaScript property write `o[k] = v`: overwrite in place if the key
exists (enumeration position preserved), otherwise append the new key at
the end of the enumeration order. -/
def jsSet {α : Type} : List (String × α) → String → α → List (String × α)
  | [], key, val => [(key, val)]
  | (k, v) :: rest, key, val =>
      if k = key then (key, val) :: rest else (k, v) :: jsSet rest key val

/-- JavaScript `delete o[k]`: removes the property when present.  (The
`delete` operator's *result* is handled at its use site: for ordinary
configurable properties it evaluates to `true` whether or not the property
existed.) -/
def jsDelete {α : Type} (l : List (String × α)) (key : String) : List (String × α) :=
  l.filter (fun p => p.1 ≠ key)

/-- JavaScript truthiness test `!v` (negated): `0`, the empty string,
`false`, `null` and `undefined` are falsy; every object — dates and
arrays included — is truthy. -/
def jsFalsy : Value → Bool
  | .num n => n == 0
  | .str s => s == ""
  | .bool b => !b
  | .null => true
  | .undef => true
  | .date _ => false
  | .arr _ => false

/-- `typeof val === 'number'`. -/
def isNumber : Value → Bool
  | .num _ => true
  | _ => false

/-- `typeof val === 'string'`. -/
def isString : Value → Bool
  | .str _ => true
  | _ => false

/-- `val instanceof Date`. -/
def isDate : Value → Bool
  | .date _ => true
  | _ => false

/-- `const supportedTypes = ['number', 'string', 'date'];` (line 11). -/
def supportedTypes : List String := ["number", "string", "date"]

/-- The `valid` lookup table inside `checkField` (lines 170–180):
`valid[type] && valid[type](value)`.  Indexing the object with a key other
than the three defined ones yields `undefined`, which is falsy, so unknown
keys give `false`. -/
def validKind (t : String) (v : Value) : Bool :=
  if t = "number" then isNumber v
  else if t = "string" then isString v
  else if t = "date" then isDate v
  else false

/-- JavaScript `String.prototype.split(' ')`, written structurally so the
kernel can evaluate it: splits on every single space, keeping empty
segments, and maps the empty string to `[""]`. -/
def splitSpAux : List Char → List Char → List String
  | [], acc => [String.mk acc.reverse]
  | c :: rest, acc =>
      if c = ' ' then String.mk acc.reverse :: splitSpAux rest []
      else splitSpAux rest (c :: acc)

/-- `type.split(' ')`. -/
def splitSp (s : String) : List String := splitSpAux s.data []

/-- A field declaration as held in a schema object: `{ type: <token> }`.
The optional `required` flag of the raw schema is never read by any code
in `src/index.js`, so it is not modelled. -/
structure FieldSpec where
  type : String
deriving DecidableEq

/-- The in-memory database held by the module:
`db.schemas` (table name → field name → declaration) and `db.tables`
(table name → id → record).  The bookkeeping properties `path`,
`autosave` and `fileExists` only drive file-system plumbing and are not
modelled; the `count` property that `create` writes into each schema
object is never read by any other code and is likewise omitted. -/
structure DB where
  schemas : List (String × List (String × FieldSpec))
  tables : List (String × List (String × Record))
deriving DecidableEq

mutual
/-- JavaScript coercion of a value to a property key (used by
`db.tables[t][value]`): strings are used verbatim, numbers and the other
primitives stringify.  Dates and arrays stringify to human-readable text
(an implementation-shaped date string, comma-joined elements); no row id
produced by the code ever has that shape, and no theorem below depends on
those two cases. -/
def propKey : Value → String
  | .str s => s
  | .num n => toString n
  | .bool b => if b then "true" else "false"
  | .null => "null"
  | .undef => "undefined"
  | .date t => "Date " ++ toString t
  | .arr vs => propKeyList vs

/-- JS `Array.prototype.toString`: elements stringified and comma-joined. -/
def propKeyList : List Value → String
  | [] => ""
  | [v] => propKey v
  | v :: rest => propKey v ++ "," ++ propKeyList rest
end

/-- The body of `checkField` (lines 169–242) after `const s = type.split(' ')`,
parameterised by the split result.  Return values: `.ok b` for a plain
boolean result (the source's fall-through `return undefined` paths are
falsy at every call site and are modelled as `.ok false`, each noted
below), `.error msg` for the two `throw new Error(...)` statements. -/
def checkFieldAux (db : DB) (s : List String) (type : String) (value : Value) :
    Except String Bool :=
  -- `if (!type || !value) return false;` (line 184)
  if type = "" ∨ jsFalsy value = true then .ok false
  -- `if (s.length === 1)` (line 188): simple type
  else if s.length = 1 then .ok (validKind type value)
  -- `s[0] === 'array' && s[1] !== 'id' && supportedTypes.indexOf(s[1]) >= 0` (lines 192–196)
  else if s.getD 0 "" = "array" ∧ s.getD 1 "" ≠ "id" ∧ supportedTypes.contains (s.getD 1 "") then
    match value with
    | .arr vs =>
        -- `if (value.length == 0) return true;` (line 197)
        if vs.length = 0 then .ok true
        else
          -- Lines 201–206: `value.forEach((v) => { if (!valid[memberType](v)) return false; })`.
          -- The `return false` exits only the forEach callback, never `checkField`;
          -- the per-element results are computed and discarded, and the branch
          -- falls through to `return true` for every array.
          let _elementChecks := vs.map (fun v => validKind (s.getD 1 "") v)
          .ok true
    | .str t =>
        -- A string has `.length` but no `forEach`: a non-empty string reaches the
        -- `value.forEach` call, which raises TypeError, caught at line 207 → false.
        if t.length = 0 then .ok true else .ok false
    | _ =>
        -- Any other value: `value.length` is undefined (`undefined == 0` is false)
        -- and `value.forEach` raises TypeError, caught at line 207 → false.
        .ok false
  -- `s[0] === 'array' && s[1] === 'id'` (line 210)
  else if s.getD 0 "" = "array" ∧ s.getD 1 "" = "id" then
    -- `db.tables[s[2]]`; when `s[2]` is absent the lookup key is "undefined".
    let t2 := s.getD 2 "undefined"
    match jsGet db.tables t2 with
    | none => .error ("Referenced table " ++ t2 ++ " does not exist.")
    | some rows =>
        match value with
        | .arr vs =>
            -- Lines 216–221: the callback tests `db.tables[s[2]][value]` — with the
            -- whole array `value` as the key, not the element `v` — and its
            -- `return false` is swallowed by forEach, so the branch always
            -- falls through to `return true`.
            let _elementChecks := vs.map (fun _ => (jsGet rows (propKey value)).isSome)
            .ok true
        | _ =>
            -- Lines 223–229 (single value): `db[s[2][value]]` indexes the table-name
            -- *string*, yielding a single character or undefined; `db` has no
            -- one-character property, so the test is always falsy → false.
            .ok false
  -- `s[0] === 'id'` (line 231)
  else if s.getD 0 "" = "id" then
    let t1 := s.getD 1 "undefined"
    match jsGet db.tables t1 with
    | none => .error ("Referenced table " ++ t1 ++ " does not exist.")
    | some rows =>
        -- `if (db.tables[s[1]][value]) return true;` — a stored row object is
        -- truthy; when the id is absent the branch falls through and the
        -- function returns undefined, which is falsy at every call site.
        .ok ((jsGet rows (propKey value)).isSome)
  else
    -- final `else return false` (line 240)
    .ok false

/-- `checkField(type, value)` (lines 169–242). -/
def checkField (db : DB) (type : String) (value : Value) : Except String Bool :=
  checkFieldAux db (splitSp type) type value

/-!
## Schema verification and database creation (`verifyTables`, `create`)

`verifyTables` (lines 52–100) reports through a callback; `create`
(lines 116–139) passes it a callback that `throw`s on a `false` result, so
— callbacks being synchronous — the first `cb(false, tok)` aborts the whole
verification even where the source omits a `return` after it.  The embedding
therefore returns `Except String`, the error carrying the offending token.
-/

/-- Verification of one field's type token against the declared table-name
set (the body of the `for (let k in curTable)` loop, lines 61–96). -/
def verifyField (tables : List String) (tok : String) : Except String Unit :=
  let s := splitSp tok
  if s.length = 1 then
    -- basic type (lines 64–70); `cb(false, f.type)` throws in `create`
    if supportedTypes.contains tok then .ok () else .error tok
  else if s.length = 2 then
    if s.getD 0 "" = "id" then
      if tables.contains (s.getD 1 "") then .ok () else .error tok
    else if s.getD 0 "" = "array" then
      if supportedTypes.contains (s.getD 1 "") then .ok () else .error tok
    else
      -- `else { continue; }` (line 86): any other two-segment token is accepted
      .ok ()
  else if s.length = 3 then
    -- lines 88–95: only `s[2]` is inspected; the `array id` prefix is not checked
    if tables.contains (s.getD 2 "") then .ok () else .error tok
  else
    -- four or more segments match no branch and the field is skipped
    .ok ()

/-- The inner field loop of `verifyTables` over one table. -/
def verifyFieldList (tables : List String) : List (String × FieldSpec) → Except String Unit
  | [] => .ok ()
  | (_, f) :: rest =>
      match verifyField tables f.type with
      | .error e => .error e
      | .ok () => verifyFieldList tables rest

/-- `verifyTables(unverifiedTables, cb)` (lines 52–100) as invoked from
`create`: the declared table-name set is collected first, then every
table's fields are verified in declaration order. -/
def verifyTables (schema : List (String × List (String × FieldSpec))) : Except String Unit :=
  let tables := schema.map Prod.fst
  let rec go : List (String × List (String × FieldSpec)) → Except String Unit
    | [] => .ok ()
    | (_, fs) :: rest =>
        match verifyFieldList tables fs with
        | .error e => .error e
        | .ok () => go rest
  go schema

/-- `create(name, schema, autosave)` (lines 116–139), the in-memory part:
on success every declared table gets an empty row object.  The
file-existence check, `db.path`, `db.autosave` and the unread
`schemas[key].count = 0` diagnostic counter are plumbing and are not
modelled. -/
def create (schema : List (String × List (String × FieldSpec))) : Except String DB :=
  match verifyTables schema with
  | .error tok =>
      .error ("Type given, " ++ tok ++ ", does not conform to a supported type.")
  | .ok () =>
      .ok { schemas := schema, tables := schema.map (fun t => (t.1, [])) }

/-!
## Insert (`insert`, lines 253–275)

The validation loop `for (let k in entry)` runs before any mutation; its
possible outcomes are the thrown errors below or success, after which the
entry is stored under a fresh identifier obtained from `uuidQueue.get()`
(an external process; the embedding takes the fresh identifier as the
`newId` parameter).
-/

/-- The ways `insert` aborts before storing anything. -/
inductive InsErr where
  /-- `schema[k]` is `undefined` for a field `k` of the entry that the table's
  schema does not declare (or the whole schema is `undefined`): reading
  `.type` raises an uncontrolled TypeError (line 257). -/
  | typeFault (key : String)
  /-- The `throw new Error` of line 259, naming table, key and value. -/
  | validationFail (table key : String) (value : Value)
  /-- An exception propagated out of `checkField` (a reference to a table
  that does not exist). -/
  | checkThrow (msg : String)
  /-- `db.tables[table]` is `undefined` at the store step (line 266). -/
  | tableFault (table : String)
deriving DecidableEq

/-- The validation loop of `insert` (lines 256–263) over the entry's
fields in enumeration order; `osch` is `db.schemas[table]`, possibly
`undefined`. -/
def insertCheck (db : DB) (t : String) (osch : Option (List (String × FieldSpec))) :
    Record → Except InsErr Unit
  | [] => .ok ()
  | (k, v) :: rest =>
      match osch.bind (fun sch => jsGet sch k) with
      | none => .error (.typeFault k)
      | some fd =>
          match checkField db fd.type v with
          | .error m => .error (.checkThrow m)
          | .ok false => .error (.validationFail t k v)
          | .ok true => insertCheck db t osch rest

/-- `insert(table, entry, cb)` (lines 253–275).  Returns the database
after the call together with the outcome; on any error the in-memory
database is exactly the one passed in, because the source mutates
`db.tables` only after the whole validation loop has passed.  The stored
record is the entry plus the assigned `_id` (lines 265–267). -/
def insert (db : DB) (t : String) (entry : Record) (newId : String) :
    DB × Except InsErr Record :=
  match insertCheck db t (jsGet db.schemas t) entry with
  | .error e => (db, .error e)
  | .ok () =>
      match jsGet db.tables t with
      | none => (db, .error (.tableFault t))
      | some rows =>
          let stored := jsSet entry "_id" (.str newId)
          ({ db with tables := jsSet db.tables t (jsSet rows newId stored) },
           .ok stored)

/-!
## Delete (`exports.delete`, lines 313–323)

`let result = delete db.tables[table][id];` — for an ordinary
(configurable) property the JavaScript `delete` operator evaluates to
`true` whether or not the property existed, so `result` is always `true`
and `cb(true, id)` is always the invoked branch.  The embedding returns
the database after the call and the boolean passed to the callback;
`none` models the TypeError raised when `db.tables[table]` is undefined.
-/

/-- `exports.delete(table, id, cb)` (lines 313–323). -/
def delete (db : DB) (t : String) (id : String) : Option (DB × Bool) :=
  match jsGet db.tables t with
  | none => none
  | some rows =>
      some ({ db with tables := jsSet db.tables t (jsDelete rows id) }, true)

/-!
## Find by id (`findById`, lines 333–343)
-/

/-- JS `parseInt(id)` followed by the number-to-property-key coercion of
`db.tables[table][parseInt(id)]`: optional sign, then the maximal leading
run of decimal digits; no digits parse to `NaN`, whose property key is
`"NaN"`.  (The legacy `0x` hexadecimal prefix is not modelled; no input
below uses it.) -/
def parseIntKey (s : String) : String :=
  let cs := s.data.dropWhile (fun c => c = ' ')
  let negative := cs.headD ' ' == '-'
  let body := if cs.headD ' ' = '-' ∨ cs.headD ' ' = '+' then cs.tail else cs
  let digits := body.takeWhile Char.isDigit
  if digits = [] then "NaN"
  else
    let n := digits.foldl (fun a c => a * 10 + (c.toNat - 48)) 0
    (if negative && (n != 0) then "-" else "") ++ toString n

/-- `findById(table, id, cb)` (lines 333–343): the lookup key is
`parseInt(id)`, not `id` itself.  `.error ()` models the TypeError when
`db.tables[table]` is undefined; otherwise the (possibly absent) row found
under the coerced key is returned. -/
def findById (db : DB) (t : String) (id : String) : Except Unit (Option Record) :=
  match jsGet db.tables t with
  | none => .error ()
  | some rows => .ok (jsGet rows (parseIntKey id))

/-!
## Query (`findAll`, `find`, lines 420–472)
-/

/-- JavaScript strict equality `===` as used by `findAll` on field values:
value equality for primitives, reference equality for objects — the
stored `Date`/array objects are never the same object as the one in the
query, so those comparisons are `false`. -/
def jsStrictEq : Value → Value → Bool
  | .num a, .num b => a == b
  | .str a, .str b => a == b
  | .bool a, .bool b => a == b
  | .null, .null => true
  | .undef, .undef => true
  | .date _, .date _ => false
  | .arr _, .arr _ => false
  | _, _ => false

/-- `findAll(table, field, value)` (lines 420–428): scan the rows in
enumeration order and keep those whose `field` is `===` to `value`
(an absent field reads as `undefined`). -/
def findAll (rows : List (String × Record)) (field : String) (value : Value) :
    List Record :=
  (rows.filter (fun kv => jsStrictEq ((jsGet kv.2 field).getD .undef) value)).map
    (fun kv => kv.2)

/-- One invocation of the callback passed to `find`. -/
inductive FindEvent where
  /-- `cb(db.tables[tableName])` — the single-argument call of line 446. -/
  | wholeTable (rows : List (String × Record))
  /-- `cb(true, results)` (line 461). -/
  | results (rs : List Record)
  /-- `cb(true, undefined)` (line 463). -/
  | noResults
  /-- `cb(false, message)` (lines 466–469). -/
  | badField (msg : String)
deriving DecidableEq

/-- `if (query === {})` (line 445): `===` on objects is reference
identity, and the right-hand side is a freshly allocated literal, so the
test is `false` for every argument. -/
def queryIsFreshLiteral (_query : List (String × Value)) : Bool := false

/-- `find(tableName, query, cb)` (lines 444–472), modelled as the list of
callback invocations it performs, in order.  The schema-field list and
row object of an unknown table read as `undefined`, over which `for ... in`
enumerates nothing. -/
def find (db : DB) (tableName : String) (query : List (String × Value)) :
    List FindEvent :=
  let head :=
    if queryIsFreshLiteral query then
      [FindEvent.wholeTable ((jsGet db.tables tableName).getD [])]
    else []
  let fields := ((jsGet db.schemas tableName).getD []).map Prod.fst
  head ++ query.map (fun kv =>
    if fields.contains kv.1 then
      let results := findAll ((jsGet db.tables tableName).getD []) kv.1 kv.2
      if results.length > 0 then FindEvent.results results else FindEvent.noResults
    else
      FindEvent.badField
        ("Query table name does not exist, table: " ++ tableName ++ ", field " ++ kv.1))

/-!
## Persistence round trip (`save`/`saveSync` + `connect`)

`save`/`saveSync` (lines 371–406) write `JSON.stringify(db)`; `connect`
(lines 150–167) replaces the in-memory database by `JSON.parse` of that
text.  `JSON.stringify` turns a `Date` into its ISO-8601 string (via
`Date.prototype.toJSON`) and `JSON.parse` performs no revival, so the
composition is modelled value-by-value below.  The bookkeeping properties
(`path`, `autosave`, `fileExists`) and the unread `count` counters are
JSON scalars that round-trip verbatim and play no part in the claims.
-/

/-- JSON documents producible from the values above (`JSON.stringify`
never emits an object for them — records are handled at the record
level). -/
inductive Json where
  | jnum (n : Int)
  | jstr (s : String)
  | jbool (b : Bool)
  | jnull
  | jarr (l : List Json)

/-- Civil calendar date from a day count relative to 1970-01-01
(the standard era-based conversion, using truncating integer division). -/
def civilFromDays (z0 : Int) : Int × Int × Int :=
  let z := z0 + 719468
  let era : Int := (if 0 ≤ z then z else z - 146096) / 146097
  let doe : Int := z - era * 146097
  let yoe : Int := (doe - doe / 1460 + doe / 36524 - doe / 146096) / 365
  let y : Int := yoe + era * 400
  let doy : Int := doe - (365 * yoe + yoe / 4 - yoe / 100)
  let mp : Int := (5 * doy + 2) / 153
  let d : Int := doy - (153 * mp + 2) / 5 + 1
  let m : Int := mp + (if mp < 10 then 3 else -9)
  (y + (if m ≤ 2 then 1 else 0), m, d)

/-- Left-pad a numeral to two digits. -/
def pad2 (n : Int) : String :=
  if 0 ≤ n ∧ n < 10 then "0" ++ toString n else toString n

/-- Left-pad a numeral to three digits. -/
def pad3 (n : Int) : String :=
  if 0 ≤ n ∧ n < 10 then "00" ++ toString n
  else if 0 ≤ n ∧ n < 100 then "0" ++ toString n
  else toString n

/-- Left-pad a year to four digits. -/
def pad4 (n : Int) : String :=
  if 0 ≤ n ∧ n < 10 then "000" ++ toString n
  else if 0 ≤ n ∧ n < 100 then "00" ++ toString n
  else if 0 ≤ n ∧ n < 1000 then "0" ++ toString n
  else toString n

/-- `Date.prototype.toISOString` (what `Date.prototype.toJSON` emits) for
a millisecond timestamp. -/
def isoString (t : Int) : String :=
  let days := t.ediv 86400000
  let ms := t.emod 86400000
  let ymd := civilFromDays days
  pad4 ymd.1 ++ "-" ++ pad2 ymd.2.1 ++ "-" ++ pad2 ymd.2.2 ++ "T" ++
    pad2 (ms / 3600000) ++ ":" ++ pad2 (ms / 60000 % 60) ++ ":" ++
    pad2 (ms / 1000 % 60) ++ "." ++ pad3 (ms % 1000) ++ "Z"

mutual
/-- `JSON.stringify` on one field value: dates serialize through
`toJSON` to their ISO string; `undefined` becomes `null` (reachable only
inside arrays — at record level undefined-valued keys are dropped, see
`saveRecord`). -/
def valueToJson : Value → Json
  | .num n => .jnum n
  | .str s => .jstr s
  | .bool b => .jbool b
  | .null => .jnull
  | .undef => .jnull
  | .date t => .jstr (isoString t)
  | .arr vs => .jarr (valueListToJson vs)

/-- `JSON.stringify` on an array of values. -/
def valueListToJson : List Value → List Json
  | [] => []
  | v :: rest => valueToJson v :: valueListToJson rest
end

mutual
/-- `JSON.parse` on one field value: no revival — strings stay strings. -/
def jsonToValue : Json → Value
  | .jnum n => .num n
  | .jstr s => .str s
  | .jbool b => .bool b
  | .jnull => .null
  | .jarr l => .arr (jsonListToValue l)

/-- `JSON.parse` on an array. -/
def jsonListToValue : List Json → List Value
  | [] => []
  | j :: rest => jsonToValue j :: jsonListToValue rest
end

/-- `JSON.parse(JSON.stringify(v))` for one field value. -/
def saveLoadValue (v : Value) : Value := jsonToValue (valueToJson v)

/-- `JSON.parse(JSON.stringify(r))` for one record: `JSON.stringify`
walks the keys in enumeration order, omits keys whose value is
`undefined`, and every remaining value goes through the value round
trip. -/
def saveLoadRecord : Record → Record
  | [] => []
  | kv :: rest =>
      if kv.2 = .undef then saveLoadRecord rest
      else (kv.1, saveLoadValue kv.2) :: saveLoadRecord rest

/-- `save()`/`saveSync()` followed by `connect(name)` on the snapshot just
written: the schema objects contain only string tokens (and numeric
counters), which JSON round-trips verbatim; every stored record goes
through the record round trip. -/
def saveLoad (db : DB) : DB :=
  { schemas := db.schemas,
    tables := db.tables.map (fun tr =>
      (tr.1, tr.2.map (fun ir => (ir.1, saveLoadRecord ir.2)))) }

mutual
/-- A value JSON round-trips to itself iff it contains no `Date` (which
serializes to a string) and no `undefined`. -/
def valueStable : Value → Bool
  | .date _ => false
  | .undef => false
  | .arr vs => valueListStable vs
  | _ => true

/-- All values of a list are JSON-stable. -/
def valueListStable : List Value → Bool
  | [] => true
  | v :: rest => valueStable v && valueListStable rest
end

/-- All field values of a record are JSON-stable. -/
def recordStable (r : Record) : Bool := r.all (fun kv => valueStable kv.2)

/-- All stored rows of the database are JSON-stable. -/
def dbStable (db : DB) : Bool :=
  db.tables.all (fun tr => tr.2.all (fun ir => recordStable ir.2))

/-!
## Helper lemmas
-/

/-- Writing back the value a key already holds leaves the object
unchanged. -/
theorem jsSet_get_eq {α : Type} :
    ∀ (l : List (String × α)) (k : String) (v : α),
      jsGet l k = some v → jsSet l k v = l
  | [], _, _, h => by simp [jsGet] at h
  | (k', v') :: rest, k, v, h => by
      by_cases hk : k' = k
      · subst hk
        simp [jsGet] at h
        simp [jsSet, h]
      · simp only [jsGet, if_neg hk] at h
        simp [jsSet, hk, jsSet_get_eq rest k v h]

/-- The validation loop of `insert` hits the `throw` of line 259 whenever
some field of the entry is declared but fails its `checkField` test, all
fields being declared with defined (non-throwing) checks. -/
theorem insertCheck_validation_error (db : DB) (t : String)
    (sch : List (String × FieldSpec)) :
    ∀ entry : Record,
      (∀ kv ∈ entry, ∃ fd b, jsGet sch kv.1 = some fd ∧
        checkField db fd.type kv.2 = Except.ok b) →
      (∃ kv ∈ entry, ∃ fd, jsGet sch kv.1 = some fd ∧
        checkField db fd.type kv.2 = Except.ok false) →
      ∃ kv ∈ entry,
        insertCheck db t (some sch) entry =
          Except.error (InsErr.validationFail t kv.1 kv.2)
  | [], _, hfail => by simp at hfail
  | (k, v) :: rest, hdecl, hfail => by
      obtain ⟨fd, b, hg, hc⟩ := hdecl (k, v) (List.mem_cons_self _ _)
      cases b with
      | false =>
          refine ⟨(k, v), List.mem_cons_self _ _, ?_⟩
          simp [insertCheck, hg, hc]
      | true =>
          have hfail' : ∃ kv ∈ rest, ∃ fd, jsGet sch kv.1 = some fd ∧
              checkField db fd.type kv.2 = Except.ok false := by
            obtain ⟨kv, hmem, fd', hg', hc'⟩ := hfail
            rcases List.mem_cons.mp hmem with heq | hmem'
            · subst heq
              rw [hg, Option.some.injEq] at hg'
              subst hg'
              rw [hc] at hc'
              cases hc'
            · exact ⟨kv, hmem', fd', hg', hc'⟩
          obtain ⟨kv, hmem, hrec⟩ :=
            insertCheck_validation_error db t sch rest
              (fun kv h => hdecl kv (List.mem_cons_of_mem _ h)) hfail'
          refine ⟨kv, List.mem_cons_of_mem _ hmem, ?_⟩
          simp [insertCheck, hg, hc, hrec]

/-- The validation loop of `insert` dereferences the undefined field spec
(the TypeError of line 257) whenever the entry holds an undeclared field
and every declared field passes its check. -/
theorem insertCheck_undeclared_fault (db : DB) (t : String)
    (sch : List (String × FieldSpec)) :
    ∀ entry : Record,
      (∃ kv ∈ entry, jsGet sch kv.1 = none) →
      (∀ kv ∈ entry, ∀ fd, jsGet sch kv.1 = some fd →
        checkField db fd.type kv.2 = Except.ok true) →
      ∃ k, (∃ v, (k, v) ∈ entry) ∧ jsGet sch k = none ∧
        insertCheck db t (some sch) entry = Except.error (InsErr.typeFault k)
  | [], hundecl, _ => by simp at hundecl
  | (k, v) :: rest, hundecl, hpass => by
      cases hk : jsGet sch k with
      | none =>
          refine ⟨k, ⟨v, List.mem_cons_self _ _⟩, hk, ?_⟩
          simp [insertCheck, hk]
      | some fd =>
          have hc := hpass (k, v) (List.mem_cons_self _ _) fd hk
          have hundecl' : ∃ kv ∈ rest, jsGet sch kv.1 = none := by
            obtain ⟨kv, hmem, hnone⟩ := hundecl
            rcases List.mem_cons.mp hmem with heq | hmem'
            · subst heq
              rw [hk] at hnone
              cases hnone
            · exact ⟨kv, hmem', hnone⟩
          obtain ⟨k', hv', hn', hrec⟩ :=
            insertCheck_undeclared_fault db t sch rest hundecl'
              (fun kv h => hpass kv (List.mem_cons_of_mem _ h))
          refine ⟨k', ?_, hn', ?_⟩
          · obtain ⟨v', hv'⟩ := hv'
            exact ⟨v', List.mem_cons_of_mem _ hv'⟩
          · simp [insertCheck, hk, hc, hrec]

mutual
/-- A JSON-stable value round-trips to itself. -/
theorem jsonRound_value_id :
    ∀ v : Value, valueStable v = true → jsonToValue (valueToJson v) = v
  | .num _, _ => rfl
  | .str _, _ => rfl
  | .bool _, _ => rfl
  | .null, _ => rfl
  | .undef, h => by simp [valueStable] at h
  | .date _, h => by simp [valueStable] at h
  | .arr vs, h => by
      have h' : valueListStable vs = true := by simpa [valueStable] using h
      show Value.arr (jsonListToValue (valueListToJson vs)) = Value.arr vs
      rw [jsonRound_list_id vs h']

/-- A list of JSON-stable values round-trips to itself. -/
theorem jsonRound_list_id :
    ∀ vs : List Value, valueListStable vs = true →
      jsonListToValue (valueListToJson vs) = vs
  | [], _ => rfl
  | v :: rest, h => by
      have h' : valueStable v = true ∧ valueListStable rest = true := by
        simpa [valueListStable, Bool.and_eq_true] using h
      show jsonToValue (valueToJson v) :: jsonListToValue (valueListToJson rest) = v :: rest
      rw [jsonRound_value_id v h'.1, jsonRound_list_id rest h'.2]
end

/-- A JSON-stable record round-trips to itself. -/
theorem saveLoadRecord_id (r : Record) (h : recordStable r = true) :
    saveLoadRecord r = r := by
  induction r with
  | nil => rfl
  | cons kv rest ih =>
      have h' : valueStable kv.2 = true ∧ recordStable rest = true := by
        simpa [recordStable, List.all_cons, Bool.and_eq_true] using h
      have hu : ¬ kv.2 = Value.undef := by
        intro he
        rw [he] at h'
        simp [valueStable] at h'
      rw [saveLoadRecord, if_neg hu, saveLoadValue, jsonRound_value_id kv.2 h'.1,
        ih h'.2]

/-!
## Example databases used as concrete inputs
-/

/-- One table `T` with a single required-by-schema string field `name`,
no rows. -/
def exDb0 : DB :=
  { schemas := [("T", [("name", ⟨"string"⟩)])], tables := [("T", [])] }

/-- A table `p` with no rows (and no table `q`), for reference checks. -/
def exDb3 : DB := { schemas := [], tables := [("p", [])] }

/-- A database holding one row with a date-valued field. -/
def exDb6 : DB :=
  { schemas := [("t", [("d", ⟨"date"⟩)])],
    tables := [("t", [("id1", [("d", Value.date 0), ("_id", Value.str "id1")])])] }

/-- A date-free database holding one row with number, string and array
fields. -/
def exDb6s : DB :=
  { schemas := [("t", [("n", ⟨"number"⟩), ("tags", ⟨"array string"⟩)])],
    tables := [("t", [("id1", [("n", Value.num 36), ("tags", Value.arr [Value.str "a"]),
      ("_id", Value.str "id1")])])] }

/-- A table `T` holding one row stored under the uuid-shaped identifier
`"ab12-cd"`. -/
def exDb9 : DB :=
  { schemas := [("T", [("name", ⟨"string"⟩)])],
    tables := [("T", [("ab12-cd", [("name", Value.str "Ada"),
      ("_id", Value.str "ab12-cd")])])] }

/-!
## The claims
-/

/-- Helper: for a one-segment type token, `checkField` on a truthy value
reduces to the `valid`-table test. -/
theorem checkField_scalar (db : DB) (tok : String) (v : Value)
    (hts : splitSp tok = [tok]) (hne : ¬ tok = "") (h : jsFalsy v = false) :
    checkField db tok v = Except.ok (validKind tok v) := by
  unfold checkField checkFieldAux
  rw [hts]
  simp [hne, h]

/-- C1 (counterexample): the number `0` has runtime kind number, yet
`checkField` rejects it against a `number` field — the `!value` guard of
line 184 rejects every falsy value regardless of its kind, so the
validator does not accept "every number". -/
theorem checkField_number_rejects_zero :
    checkField exDb0 "number" (Value.num 0) = Except.ok false ∧
    isNumber (Value.num 0) = true :=
  ⟨rfl, rfl⟩

/-- C1 (amended): restricted to truthy candidate values, `checkField` on
each scalar token returns true exactly when the value's runtime kind
matches the declared kind, rejecting every other kind including
cross-kind coercions; the falsy values (`0`, the empty string, `null`,
`undefined`, `false`) are rejected against every scalar kind by the
initial guard. -/
theorem checkField_scalar_exact (db : DB) (v : Value) (h : jsFalsy v = false) :
    (checkField db "number" v = Except.ok true ↔ isNumber v = true) ∧
    (checkField db "string" v = Except.ok true ↔ isString v = true) ∧
    (checkField db "date" v = Except.ok true ↔ isDate v = true) := by
  rw [checkField_scalar db "number" v rfl (by decide) h,
    checkField_scalar db "string" v rfl (by decide) h,
    checkField_scalar db "date" v rfl (by decide) h]
  simp [validKind]

/-- C1 (witness): the truthy number `3` is accepted by a `number` field
and by no other scalar kind. -/
theorem checkField_scalar_exact_witness :
    jsFalsy (Value.num 3) = false ∧
    ((checkField exDb0 "number" (Value.num 3) = Except.ok true ↔
        isNumber (Value.num 3) = true) ∧
      (checkField exDb0 "string" (Value.num 3) = Except.ok true ↔
        isString (Value.num 3) = true) ∧
      (checkField exDb0 "date" (Value.num 3) = Except.ok true ↔
        isDate (Value.num 3) = true)) :=
  ⟨rfl, checkField_scalar_exact exDb0 (Value.num 3) rfl⟩

/-- C2: the array `[1, "x"]` contains an element that fails the `number`
element test, yet `checkField` accepts the whole field against
`array number` — the `return false` inside the `forEach` callback
(line 203) exits only the callback, so the element results are discarded
and every array passes. -/
theorem checkField_array_accepts_invalid_element :
    checkField exDb0 "array number" (Value.arr [Value.num 1, Value.str "x"]) =
      Except.ok true ∧
    validKind "number" (Value.str "x") = false :=
  ⟨rfl, rfl⟩

/-- C3: with the referenced table `p` existing but empty, `checkField`
accepts `["ghost"]` against `array id p` even though `"ghost"` is not a
row id of `p` (the callback of line 216 tests `db.tables[s[2]][value]`
with the whole array as key, and its result is swallowed by `forEach`);
the second half of the claim holds: a reference to the nonexistent table
`q` raises the referential-integrity fault instead of returning false. -/
theorem checkField_arrayref_ignores_row_ids :
    checkField exDb3 "array id p" (Value.arr [Value.str "ghost"]) = Except.ok true ∧
    jsGet ((jsGet exDb3.tables "p").getD [("x", [])]) "ghost" = none ∧
    checkField exDb3 "array id q" (Value.arr [Value.str "ghost"]) =
      Except.error "Referenced table q does not exist." ∧
    checkField exDb3 "id q" (Value.str "ghost") =
      Except.error "Referenced table q does not exist." :=
  ⟨rfl, rfl, rfl, rfl⟩

/-- C4: schema compilation does not fail on every token outside the
supported grammar: the two-segment token `"foo bar"` (first segment
neither `id` nor `array`), the four-segment token `"a b c d"`, and the
three-segment token `"x y T"` (not of the form `array id <table>`, but
with a declared third segment) are all accepted by
`verifyTables`/`create`, while a genuinely unknown one-segment token is
rejected with the documented message. -/
theorem create_accepts_malformed_tokens :
    (create [("T", [("f", ⟨"foo bar"⟩)])]).isOk = true ∧
    (create [("T", [("f", ⟨"a b c d"⟩)])]).isOk = true ∧
    (create [("T", [("f", ⟨"x y T"⟩)])]).isOk = true ∧
    create [("T", [("f", ⟨"blah"⟩)])] =
      Except.error "Type given, blah, does not conform to a supported type." :=
  ⟨rfl, rfl, rfl, rfl⟩

/-- C5: if some field of the entry is declared in the table's schema and
fails its compiled type check (all fields of the entry being declared,
with defined checks), then `insert` reports the validation error naming
the table, the field and the offending value, and the database — row
mapping, row count and identifier set — is exactly the one before the
call. -/
theorem insert_failed_validation_atomic (db : DB) (t : String) (entry : Record)
    (newId : String) (sch : List (String × FieldSpec))
    (hsch : jsGet db.schemas t = some sch)
    (hdecl : ∀ kv ∈ entry, ∃ fd b, jsGet sch kv.1 = some fd ∧
      checkField db fd.type kv.2 = Except.ok b)
    (hfail : ∃ kv ∈ entry, ∃ fd, jsGet sch kv.1 = some fd ∧
      checkField db fd.type kv.2 = Except.ok false) :
    (insert db t entry newId).1 = db ∧
    ∃ kv ∈ entry, (insert db t entry newId).2 =
      Except.error (InsErr.validationFail t kv.1 kv.2) := by
  obtain ⟨kv, hmem, herr⟩ :=
    insertCheck_validation_error db t sch entry hdecl hfail
  unfold insert
  rw [hsch, herr]
  exact ⟨rfl, kv, hmem, rfl⟩

/-- C5 (witness): inserting `{name: 7}` into the table whose `name` field
is a string fails with the validation error and leaves the database
unchanged. -/
theorem insert_failed_validation_atomic_witness :
    (insert exDb0 "T" [("name", Value.num 7)] "id1").1 = exDb0 ∧
    ∃ kv ∈ [("name", Value.num 7)],
      (insert exDb0 "T" [("name", Value.num 7)] "id1").2 =
        Except.error (InsErr.validationFail "T" kv.1 kv.2) :=
  insert_failed_validation_atomic exDb0 "T" [("name", Value.num 7)] "id1"
    [("name", ⟨"string"⟩)] rfl
    (by
      rintro kv hkv
      simp only [List.mem_singleton] at hkv
      subst hkv
      exact ⟨⟨"string"⟩, false, rfl, rfl⟩)
    ⟨("name", Value.num 7), List.mem_singleton.mpr rfl, ⟨"string"⟩, rfl, rfl⟩

/-- C6 (counterexample): saving and loading a database holding one
date-valued field is not the identity — the `Date` is serialized to its
ISO string by `JSON.stringify` and `JSON.parse` does not revive it. -/
theorem saveLoad_not_identity_on_dates : saveLoad exDb6 ≠ exDb6 := by decide

/-- C6 (amended): save followed by load reproduces an identical schema
set and identical row contents for every table whose stored values are
JSON-stable — numbers, strings, booleans, nulls, identifier strings and
arrays/array-references thereof; date-valued fields are excluded, since a
`Date` serializes to its ISO string and is loaded back as a string, not a
`Date`. -/
theorem saveLoad_roundtrip_identity (db : DB) (h : dbStable db = true) :
    saveLoad db = db := by
  have rowsId : ∀ rows : List (String × Record),
      rows.all (fun ir => recordStable ir.2) = true →
      rows.map (fun ir => (ir.1, saveLoadRecord ir.2)) = rows := by
    intro rows hrows
    induction rows with
    | nil => rfl
    | cons ir rest ih =>
        simp only [List.all_cons, Bool.and_eq_true] at hrows
        simp [saveLoadRecord_id ir.2 hrows.1, ih hrows.2]
  have tablesId : ∀ tables : List (String × List (String × Record)),
      tables.all (fun tr => tr.2.all (fun ir => recordStable ir.2)) = true →
      tables.map (fun tr => (tr.1, tr.2.map (fun ir => (ir.1, saveLoadRecord ir.2)))) =
        tables := by
    intro tables htables
    induction tables with
    | nil => rfl
    | cons tr rest ih =>
        simp only [List.all_cons, Bool.and_eq_true] at htables
        simp [rowsId tr.2 htables.1, ih htables.2]
  simp only [dbStable] at h
  simp only [saveLoad, tablesId db.tables h]

/-- C6 (witness): a concrete date-free database round-trips to itself. -/
theorem saveLoad_roundtrip_identity_witness :
    dbStable exDb6s = true ∧ saveLoad exDb6s = exDb6s :=
  ⟨by decide, saveLoad_roundtrip_identity exDb6s (by decide)⟩

/-- C7: calling `find` with the empty predicate object performs no
callback invocation at all — the `query === {}` test of line 445 compares
object identity against a fresh literal and is false for every argument,
and the `for ... in` loop over an empty query body never runs — so no
rows are ever returned, for any database and table. -/
theorem find_empty_query_produces_no_events (db : DB) (tableName : String) :
    find db tableName [] = [] := by
  simp [find, queryIsFreshLiteral]

/-- C8: `exports.delete` on an identifier that is not present in the
table reports `true` to its callback — the JavaScript `delete` operator
evaluates to `true` for an absent property — and leaves the database
unchanged, contradicting the claim that it reports `false` there. -/
theorem delete_reports_true_on_absent_id (db : DB) (t : String) (id : String)
    (rows : List (String × Record)) (h1 : jsGet db.tables t = some rows)
    (h2 : ∀ p ∈ rows, p.1 ≠ id) :
    delete db t id = some (db, true) := by
  have hfilter : jsDelete rows id = rows :=
    List.filter_eq_self.mpr (by intro a ha; simpa using h2 a ha)
  unfold delete
  rw [h1]
  show some ({ db with tables := jsSet db.tables t (jsDelete rows id) }, true) =
    some (db, true)
  rw [hfilter, jsSet_get_eq db.tables t rows h1]

/-- C8 (witness): deleting the id `"zzz"` from the empty table `T`
reports `true` and changes nothing. -/
theorem delete_reports_true_on_absent_id_witness :
    delete exDb0 "T" "zzz" = some (exDb0, true) :=
  delete_reports_true_on_absent_id exDb0 "T" "zzz" [] rfl (by simp)

/-- C9: the table `T` stores a record under the uuid-shaped identifier
`"ab12-cd"` — a direct lookup finds it — yet `findById` returns nothing,
because line 336 looks up `parseInt(id)`, which coerces the identifier to
the property key `"NaN"`. -/
theorem findById_misses_uuid_identifier :
    findById exDb9 "T" "ab12-cd" = Except.ok none ∧
    jsGet ((jsGet exDb9.tables "T").getD [])  "ab12-cd" =
      some [("name", Value.str "Ada"), ("_id", Value.str "ab12-cd")] ∧
    parseIntKey "ab12-cd" = "NaN" :=
  ⟨rfl, rfl, rfl⟩

/-- C10: if the entry holds a field that the table's schema does not
declare, and every declared field of the entry passes its check, `insert`
raises the uncontrolled TypeError of line 257 (reading `.type` of the
undefined field spec) — not a validation error naming table, field and
value — and the fault occurs before any mutation, leaving the database
exactly as it was. -/
theorem insert_undeclared_field_type_fault (db : DB) (t : String)
    (entry : Record) (newId : String) (sch : List (String × FieldSpec))
    (hsch : jsGet db.schemas t = some sch)
    (hundecl : ∃ kv ∈ entry, jsGet sch kv.1 = none)
    (hpass : ∀ kv ∈ entry, ∀ fd, jsGet sch kv.1 = some fd →
      checkField db fd.type kv.2 = Except.ok true) :
    (insert db t entry newId).1 = db ∧
    ∃ k, (∃ v, (k, v) ∈ entry) ∧ jsGet sch k = none ∧
      (insert db t entry newId).2 = Except.error (InsErr.typeFault k) := by
  obtain ⟨k, hv, hn, herr⟩ :=
    insertCheck_undeclared_fault db t sch entry hundecl hpass
  unfold insert
  rw [hsch, herr]
  exact ⟨rfl, k, hv, hn, rfl⟩

/-- C10 (witness): inserting `{nope: "x"}` into the table whose schema
declares only `name` raises the type fault on `nope` and leaves the
database unchanged. -/
theorem insert_undeclared_field_type_fault_witness :
    (insert exDb0 "T" [("nope", Value.str "x")] "id1").1 = exDb0 ∧
    ∃ k, (∃ v, (k, v) ∈ [("nope", Value.str "x")]) ∧
      jsGet [("name", (⟨"string"⟩ : FieldSpec))] k = none ∧
      (insert exDb0 "T" [("nope", Value.str "x")] "id1").2 =
        Except.error (InsErr.typeFault k) :=
  insert_undeclared_field_type_fault exDb0 "T" [("nope", Value.str "x")] "id1"
    [("name", ⟨"string"⟩)] rfl
    ⟨("nope", Value.str "x"), List.mem_singleton.mpr rfl, rfl⟩
    (by
      rintro kv hkv fd hfd
      simp only [List.mem_singleton] at hkv
      subst hkv
      simp [jsGet] at hfd)

end Jsimdb
